import Mathlib

/-!
Shallow embedding of the Achievement and Streak Engine of the
Personalized-Health-Wellness-Companion backend.

Embedded source files:
 - the streak service (updateWorkoutStreak, checkStreakMilestones,
   checkAndResetStreak),
 - the gamification service (awardPoints, checkAndAwardBadges with its
   four criterion checkers and calculateWaterStreak, getLeaderboard,
   getUserRank),
 - the User, Badge, ActivityLog, BiometricData and Goal document shapes
   restricted to the fields these services read or write.

Modeling conventions:
 - Dates are calendar-day numbers: the value of startOfDay(d) divided by
   86,400,000 ms.  The services only compare start-of-day values, and
   `Math.floor((today - lastWorkout) / (1000*60*60*24))` on two
   start-of-day timestamps is exactly the difference of day numbers.
 - Mongo documents become structures; a findOne on a day window becomes a
   search over the entry list; countDocuments becomes a filtered length.
 - Notification documents are represented by their type together with the
   value interpolated into the title/message (the streak length, the prior
   streak length, or the badge id).  The source uses the Mongo type string
   "streak_milestone" both for milestone and for streak-broken
   notifications; the two differ in title/payload, which is what the
   `NotifKind` constructors record.
 - Fallible persistence calls (user.save(), ActivityLog.create(),
   Notification.create(), queries) are driven by explicit success flags or
   by an oracle assigning a success bit to each DB call in order, so that
   the try/catch structure of the source can be stated and proved about.
-/

namespace HealthEngine

/-- Account status of a user (User schema accountStatus enum). -/
inductive AccountStatus where
  | active
  | inactive
  | suspended
deriving DecidableEq, Repr

/-- One element of User.badges: a badgeId together with the earnedAt day. -/
structure BadgeAward where
  badgeId : Nat
  earnedAt : Int
deriving DecidableEq, Repr

/-- The per-user progress record: the gamification fields of the User
document (User schema), plus identity and account status. -/
structure User where
  userId : Nat
  name : String
  createdAt : Int
  totalPoints : Int
  currentWorkoutStreak : Int
  longestWorkoutStreak : Int
  lastWorkoutDate : Option Int
  badges : List BadgeAward
  accountStatus : AccountStatus
deriving DecidableEq, Repr

/-- An ActivityLog document; `day` is the calendar day of createdAt and
`metaPostType` is metadata.postType when present. -/
structure LogEntry where
  userId : Nat
  activityType : String
  description : String
  day : Int
  pointsEarned : Int
  metaPostType : Option String
deriving DecidableEq, Repr

/-- The semantic payload of a Notification document created by the engine. -/
inductive NotifKind where
  | streakMilestone (streak : Int)
  | streakBroken (priorStreak : Int)
  | badgeEarned (badgeId : Nat)
deriving DecidableEq, Repr

/-- A Notification document (fields the engine writes). -/
structure Notif where
  userId : Nat
  kind : NotifKind
  priority : String
deriving DecidableEq, Repr

/-- Badge.criteria subdocument (Badge schema). -/
structure Criteria where
  ctype : String
  target : Int
  metric : String
deriving DecidableEq, Repr

/-- A Badge catalog document (Badge schema fields the evaluator reads). -/
structure Badge where
  badgeId : Nat
  name : String
  criteria : Criteria
  points : Int
  isActive : Bool
deriving DecidableEq, Repr

/-- A BiometricData document (fields read by badge criteria). -/
structure BiometricEntry where
  userId : Nat
  btype : String
  value : Int
  date : Int
deriving DecidableEq, Repr

/-- A Goal document (fields read by badge criteria). -/
structure GoalRec where
  userId : Nat
  gtype : String
  status : String
deriving DecidableEq, Repr

/-- The persisted state the engine operations read and write, restricted
to one user's progress record plus the global collections. -/
structure EngineState where
  user : User
  catalog : List Badge
  log : List LogEntry
  bio : List BiometricEntry
  goals : List GoalRec
  notifs : List Notif
deriving DecidableEq, Repr

/-- ActivityLog.findOne({userId, activityType: workout_completed,
createdAt within the given calendar day}) as a Boolean existence test. -/
def hasWorkoutLogOn (log : List LogEntry) (uid : Nat) (day : Int) : Bool :=
  log.any fun e => e.userId == uid && e.activityType == "workout_completed" && e.day == day

/-- The fixed milestone list of checkStreakMilestones. -/
def streakMilestoneValues : List Int := [3, 7, 14, 21, 30, 50, 100, 365]

/-- The milestones that additionally carry a point bonus. -/
def majorMilestoneValues : List Int := [7, 30, 100]

/-- checkStreakMilestones(user) from the streak service: emits a milestone
notification when currentWorkoutStreak is in the milestone list, and for
7/30/100 credits 50/200/500 bonus points and writes one streak_milestone
ledger entry.  Returns the updated user, the created ledger entries and
the created notifications. -/
def checkStreakMilestones (u : User) (today : Int) : User × List LogEntry × List Notif :=
  if u.currentWorkoutStreak ∈ streakMilestoneValues then
    let notif : Notif :=
      { userId := u.userId
        kind := NotifKind.streakMilestone u.currentWorkoutStreak
        priority := "high" }
    if u.currentWorkoutStreak ∈ majorMilestoneValues then
      let bonusPoints : Int :=
        if u.currentWorkoutStreak = 7 then 50
        else if u.currentWorkoutStreak = 30 then 200
        else 500
      let entry : LogEntry :=
        { userId := u.userId
          activityType := "streak_milestone"
          description := "Reached " ++ toString u.currentWorkoutStreak ++ "-day streak"
          day := today
          pointsEarned := bonusPoints
          metaPostType := none }
      ({ u with totalPoints := u.totalPoints + bonusPoints }, [entry], [notif])
    else (u, [], [notif])
  else (u, [], [])

/-- updateWorkoutStreak(userId) from the streak service, for a present
user.  Returns the persisted state after the call and the returned
currentWorkoutStreak value. -/
def updateWorkoutStreak (s : EngineState) (today : Int) : EngineState × Int :=
  let user := s.user
  let yesterday := today - 1
  let todayWorkout := hasWorkoutLogOn s.log user.userId today
  if user.lastWorkoutDate = some today then
    (s, user.currentWorkoutStreak)
  else
    let yesterdayWorkout := hasWorkoutLogOn s.log user.userId yesterday
    if todayWorkout then
      let streakAfter :=
        if yesterdayWorkout = true ∨ user.lastWorkoutDate = none then
          user.currentWorkoutStreak + 1
        else 1
      let longestAfter :=
        if streakAfter > user.longestWorkoutStreak then streakAfter
        else user.longestWorkoutStreak
      let u1 :=
        { user with
          currentWorkoutStreak := streakAfter
          longestWorkoutStreak := longestAfter
          lastWorkoutDate := some today }
      let res := checkStreakMilestones u1 today
      ({ s with user := res.1, log := s.log ++ res.2.1, notifs := s.notifs ++ res.2.2 },
       res.1.currentWorkoutStreak)
    else (s, user.currentWorkoutStreak)

/-- checkAndResetStreak(userId) from the streak service (the daily sweep),
for a present user. -/
def checkAndResetStreak (s : EngineState) (today : Int) : EngineState :=
  match s.user.lastWorkoutDate with
  | none => s
  | some lastWorkout =>
    let daysSinceLastWorkout := today - lastWorkout
    if daysSinceLastWorkout > 1 ∧ s.user.currentWorkoutStreak > 0 then
      let oldStreak := s.user.currentWorkoutStreak
      { s with
        user := { s.user with currentWorkoutStreak := 0 }
        notifs := s.notifs ++
          [{ userId := s.user.userId
             kind := NotifKind.streakBroken oldStreak
             priority := "medium" }] }
    else s

/-- awardPoints(userId, points, reason) from the gamification service, for
a present user.  saveOk and logOk model success of user.save() and of
ActivityLog.create(); the result is the returned value or raised error,
paired with the persisted state after the call. -/
def awardPoints (s : EngineState) (points : Int) (reason : String) (today : Int)
    (saveOk : Bool) (logOk : Bool) : Except String Int × EngineState :=
  let u1 := { s.user with totalPoints := s.user.totalPoints + points }
  if saveOk then
    let s1 := { s with user := u1 }
    if logOk then
      let entry : LogEntry :=
        { userId := s.user.userId
          activityType := "points_earned"
          description := "Earned " ++ toString points ++ " points: " ++ reason
          day := today
          pointsEarned := points
          metaPostType := none }
      (Except.ok u1.totalPoints, { s1 with log := s1.log ++ [entry] })
    else (Except.error "ActivityLog create failed", s1)
  else (Except.error "User save failed", s)

/-- countDocuments over the activity log. -/
def countLogs (log : List LogEntry) (p : LogEntry → Bool) : Nat :=
  (log.filter p).length

/-- BiometricData.findOne({userId, type: water_intake, date within day}). -/
def findWaterIntakeOn (bio : List BiometricEntry) (uid : Nat) (day : Int) :
    Option BiometricEntry :=
  bio.find? fun e => e.userId == uid && e.btype == "water_intake" && e.date == day

/-- The backwards loop of calculateWaterStreak: up to `n` remaining days,
starting at `day` and stepping one day back while the water goal is met. -/
def calculateWaterStreakAux (bio : List BiometricEntry) (uid : Nat) :
    Nat → Int → Nat
  | 0, _ => 0
  | n + 1, day =>
    match findWaterIntakeOn bio uid day with
    | some e =>
      if e.value ≥ 2000 then 1 + calculateWaterStreakAux bio uid n (day - 1) else 0
    | none => 0

/-- calculateWaterStreak(userId) from the gamification service: checks up
to 365 days backwards from today. -/
def calculateWaterStreak (bio : List BiometricEntry) (uid : Nat) (today : Int) : Nat :=
  calculateWaterStreakAux bio uid 365 today

/-- checkStreakBadge(userId, badge): switch on criteria.metric. -/
def checkStreakBadge (u : User) (bio : List BiometricEntry) (today : Int)
    (badge : Badge) : Bool :=
  if badge.criteria.metric == "workout_streak" then
    decide (badge.criteria.target ≤ u.currentWorkoutStreak)
  else if badge.criteria.metric == "water_goal_streak" then
    decide (badge.criteria.target ≤ (calculateWaterStreak bio u.userId today : Int))
  else false

/-- checkCountBadge(userId, badge): switch on criteria.metric. -/
def checkCountBadge (log : List LogEntry) (goals : List GoalRec) (uid : Nat)
    (badge : Badge) : Bool :=
  if badge.criteria.metric == "workouts_completed" then
    decide (badge.criteria.target ≤
      (countLogs log fun e => e.userId == uid && e.activityType == "workout_completed" : Int))
  else if badge.criteria.metric == "meal_plans_completed" then
    decide (badge.criteria.target ≤
      (countLogs log fun e => e.userId == uid && e.activityType == "meal_logged" : Int))
  else if badge.criteria.metric == "goals_completed" then
    decide (badge.criteria.target ≤
      ((goals.filter fun g => g.userId == uid && g.status == "completed").length : Int))
  else if badge.criteria.metric == "encouragements_given" then
    decide (badge.criteria.target ≤
      (countLogs log fun e => e.userId == uid && e.activityType == "community_post" &&
        e.metaPostType == some "motivation" : Int))
  else false

/-- The entry BiometricData.findOne(...).sort({date: 1}) returns: minimal
date, first in collection order among ties. -/
def minByDate : List BiometricEntry → Option BiometricEntry
  | [] => none
  | e :: es =>
    match minByDate es with
    | none => some e
    | some m => if e.date ≤ m.date then some e else some m

/-- The entry BiometricData.getLatestByType returns
(findOne sorted {date: -1}): maximal date, first among ties. -/
def maxByDate : List BiometricEntry → Option BiometricEntry
  | [] => none
  | e :: es =>
    match maxByDate es with
    | none => some e
    | some m => if e.date ≥ m.date then some e else some m

/-- checkValueBadge(userId, badge): first-ever weight minus latest weight
compared to the target. -/
def checkValueBadge (bio : List BiometricEntry) (uid : Nat) (badge : Badge) : Bool :=
  if badge.criteria.metric == "weight_lost" then
    let weights := bio.filter fun e => e.userId == uid && e.btype == "weight"
    match minByDate weights, maxByDate weights with
    | some firstWeight, some latestWeight =>
      decide (badge.criteria.target ≤ firstWeight.value - latestWeight.value)
    | _, _ => false
  else false

/-- checkCustomBadge(userId, badge): switch on criteria.metric. -/
def checkCustomBadge (log : List LogEntry) (goals : List GoalRec) (uid : Nat)
    (badge : Badge) : Bool :=
  if badge.criteria.metric == "goal_weight_reached" then
    goals.any fun g => g.userId == uid && g.gtype == "weight" && g.status == "completed"
  else if badge.criteria.metric == "community_joined" then
    log.any fun e => e.userId == uid && e.activityType == "community_post"
  else false

/-- The switch on badge.criteria.type inside checkAndAwardBadges.  The
criterion checkers reread the user with User.findById, so they see the
persisted user (`u`), and count against the current persisted log. -/
def badgeSatisfied (u : User) (log : List LogEntry) (bio : List BiometricEntry)
    (goals : List GoalRec) (today : Int) (badge : Badge) : Bool :=
  if badge.criteria.ctype == "streak" then checkStreakBadge u bio today badge
  else if badge.criteria.ctype == "count" then checkCountBadge log goals u.userId badge
  else if badge.criteria.ctype == "value" then checkValueBadge bio u.userId badge
  else if badge.criteria.ctype == "custom" then checkCustomBadge log goals u.userId badge
  else false

/-- The badge_earned ledger entry checkAndAwardBadges creates. -/
def badgeEarnedLogEntry (uid : Nat) (today : Int) (b : Badge) : LogEntry :=
  { userId := uid
    activityType := "badge_earned"
    description := "Earned badge: " ++ b.name
    day := today
    pointsEarned := b.points
    metaPostType := none }

/-- The badge_earned notification checkAndAwardBadges creates. -/
def badgeEarnedNotif (uid : Nat) (b : Badge) : Notif :=
  { userId := uid, kind := NotifKind.badgeEarned b.badgeId, priority := "high" }

/-- Accumulator of the badge loop: next DB-call index, the in-memory user
document, the persisted log and notifications, and newBadgesEarned. -/
structure EvalAcc where
  k : Nat
  user : User
  log : List LogEntry
  notifs : List Notif
  newBadges : List Badge
deriving Repr

/-- The for-loop of checkAndAwardBadges over the active badges.  Each
fallible DB operation (the criterion queries, Notification.create,
ActivityLog.create) consults `oracle` at the next call index; a false bit
raises, carrying the state persisted so far (the in-memory user document
is never saved inside the loop, so a raise loses its mutations). -/
def awardBadgesLoop (origUser : User) (bio : List BiometricEntry)
    (goals : List GoalRec) (today : Int) (earnedBadgeIds : List Nat)
    (oracle : Nat → Bool) : List Badge → EvalAcc → Except EvalAcc EvalAcc
  | [], acc => Except.ok acc
  | badge :: rest, acc =>
    if earnedBadgeIds.contains badge.badgeId then
      awardBadgesLoop origUser bio goals today earnedBadgeIds oracle rest acc
    else if oracle acc.k = false then Except.error { acc with k := acc.k + 1 }
    else
      let hasEarned := badgeSatisfied origUser acc.log bio goals today badge
      let acc1 := { acc with k := acc.k + 1 }
      if hasEarned then
        let acc2 :=
          { acc1 with
            user := { acc1.user with
              badges := acc1.user.badges ++
                [({ badgeId := badge.badgeId, earnedAt := today } : BadgeAward)]
              totalPoints := acc1.user.totalPoints + badge.points }
            newBadges := acc1.newBadges ++ [badge] }
        if oracle acc2.k = false then Except.error { acc2 with k := acc2.k + 1 }
        else
          let acc3 := { acc2 with
            k := acc2.k + 1
            notifs := acc2.notifs ++ [badgeEarnedNotif origUser.userId badge] }
          if oracle acc3.k = false then Except.error { acc3 with k := acc3.k + 1 }
          else
            let acc4 := { acc3 with
              k := acc3.k + 1
              log := acc3.log ++ [badgeEarnedLogEntry origUser.userId today badge] }
            awardBadgesLoop origUser bio goals today earnedBadgeIds oracle rest acc4
      else
        awardBadgesLoop origUser bio goals today earnedBadgeIds oracle rest acc1

/-- The all-calls-succeed oracle. -/
def trueOracle : Nat → Bool := fun _ => true

/-- checkAndAwardBadges(userId) from the gamification service, for a
present user.  Call 0 is User.findById, call 1 is Badge.find; the final
call after the loop is user.save(), performed only when newBadgesEarned
is non-empty.  The catch handler returns the empty list, keeping whatever
the body persisted before the failure (the user document is only
persisted by the final successful save). -/
def checkAndAwardBadges (s : EngineState) (today : Int) (oracle : Nat → Bool) :
    EngineState × List Badge :=
  if oracle 0 = false then (s, [])
  else if oracle 1 = false then (s, [])
  else
    let earnedBadgeIds := s.user.badges.map BadgeAward.badgeId
    let allBadges := s.catalog.filter fun b => b.isActive
    match awardBadgesLoop s.user s.bio s.goals today earnedBadgeIds oracle allBadges
        { k := 2, user := s.user, log := s.log, notifs := s.notifs, newBadges := [] } with
    | Except.error acc => ({ s with log := acc.log, notifs := acc.notifs }, [])
    | Except.ok acc =>
      if acc.newBadges.length > 0 then
        if oracle acc.k = false then
          ({ s with log := acc.log, notifs := acc.notifs }, [])
        else ({ s with user := acc.user, log := acc.log, notifs := acc.notifs }, acc.newBadges)
      else ({ s with log := acc.log, notifs := acc.notifs }, acc.newBadges)

/-- checkAndAwardBadges on the happy path (every DB call succeeds). -/
def evaluate (s : EngineState) (today : Int) : EngineState × List Badge :=
  checkAndAwardBadges s today trueOracle

/-- User.findById by our numeric id. -/
def findUserById (users : List User) (uid : Nat) : Option User :=
  users.find? fun u => u.userId == uid

/-- getUserRank(userId, metric) from the gamification service: a switch on
the metric string with a default falling back to totalPoints;
countDocuments over active users strictly greater on the counted field,
plus one.  none models the User-not-found error. -/
def getUserRank (users : List User) (uid : Nat) (metric : String) : Option Nat :=
  match findUserById users uid with
  | none => none
  | some user =>
    let higherRankedCount :=
      if metric == "totalPoints" then
        (users.filter fun v =>
          v.accountStatus == AccountStatus.active &&
            decide (user.totalPoints < v.totalPoints)).length
      else if metric == "currentWorkoutStreak" then
        (users.filter fun v =>
          v.accountStatus == AccountStatus.active &&
            decide (user.currentWorkoutStreak < v.currentWorkoutStreak)).length
      else
        (users.filter fun v =>
          v.accountStatus == AccountStatus.active &&
            decide (user.totalPoints < v.totalPoints)).length
    some (higherRankedCount + 1)

/-- The sort key getLeaderboard passes to the database (the sortCriteria
switch, including its default branch). -/
def metricSortKey (metric : String) (u : User) : Int :=
  if metric == "totalPoints" then u.totalPoints
  else if metric == "currentWorkoutStreak" then u.currentWorkoutStreak
  else if metric == "longestWorkoutStreak" then u.longestWorkoutStreak
  else u.totalPoints

/-- User.find({accountStatus: active}). -/
def activeUsers (users : List User) : List User :=
  users.filter fun u => u.accountStatus == AccountStatus.active

/-- One row of the getLeaderboard response. -/
structure LeaderboardEntry where
  rank : Nat
  userId : Nat
  name : String
  totalPoints : Int
  currentStreak : Int
  longestStreak : Int
deriving DecidableEq, Repr

/-- The final map of getLeaderboard: rank is position plus one. -/
def renderLeaderboard : Nat → List User → List LeaderboardEntry
  | _, [] => []
  | i, u :: us =>
    { rank := i + 1
      userId := u.userId
      name := u.name
      totalPoints := u.totalPoints
      currentStreak := u.currentWorkoutStreak
      longestStreak := u.longestWorkoutStreak } ::
      renderLeaderboard (i + 1) us

/-- The results the getLeaderboard query can return.  The source sorts
solely on the chosen metric (descending) with no secondary key, so the
database is free to return any ordering of the active users that is
descending on that key; the code then truncates to the limit and renders
ranks by position. -/
def getLeaderboardResult (users : List User) (limit : Nat) (metric : String)
    (res : List LeaderboardEntry) : Prop :=
  ∃ order : List User,
    order.Perm (activeUsers users) ∧
    order.Sorted (fun a b => metricSortKey metric b ≤ metricSortKey metric a) ∧
    res = renderLeaderboard 0 (order.take limit)

/-- Modelled from the spec: the metric value named by the spec contract,
where metric ranges over totalPoints, currentWorkoutStreak and
longestWorkoutStreak. -/
def specMetricValue (metric : String) (u : User) : Int :=
  if metric == "totalPoints" then u.totalPoints
  else if metric == "currentWorkoutStreak" then u.currentWorkoutStreak
  else u.longestWorkoutStreak

/-- Modelled from the spec: rankOf(userId, metric) = 1 + count of active
users strictly greater on that same metric. -/
def specRankOf (users : List User) (uid : Nat) (metric : String) : Option Nat :=
  match findUserById users uid with
  | none => none
  | some user =>
    some (1 + (users.filter fun v =>
      v.accountStatus == AccountStatus.active &&
        decide (specMetricValue metric user < specMetricValue metric v)).length)

/-- The engine operations quantified over in the global invariant claim. -/
inductive Op where
  | qualifying (today : Int)
  | sweep (today : Int)
  | credit (amount : Int) (reason : String) (today : Int)
  | evalBadges (today : Int)
deriving Repr

/-- One engine step (using the success path of the fallible operations). -/
def applyOp (s : EngineState) : Op → EngineState
  | Op.qualifying t => (updateWorkoutStreak s t).1
  | Op.sweep t => checkAndResetStreak s t
  | Op.credit a r t => (awardPoints s a r t true true).2
  | Op.evalBadges t => (evaluate s t).1

/-- A sequence of engine steps. -/
def applyOps (s : EngineState) (ops : List Op) : EngineState :=
  ops.foldl applyOp s

/-- The claim's restriction on credits: the credited amount is
non-negative. -/
def CreditNonneg : Op → Prop
  | Op.credit a _ _ => 0 ≤ a
  | _ => True

/-- The inductive progress invariant: non-negative current streak, the
longest-streak bound, and non-negative points. -/
def ProgressInv (s : EngineState) : Prop :=
  0 ≤ s.user.currentWorkoutStreak ∧
  s.user.currentWorkoutStreak ≤ s.user.longestWorkoutStreak ∧
  0 ≤ s.user.totalPoints

/-- Every badge in the catalog carries a non-negative point reward (true
of every badge the application seeds; the schema default is 10). -/
def CatalogNonneg (s : EngineState) : Prop :=
  ∀ b ∈ s.catalog, 0 ≤ b.points

/-- The in-memory mutation applied per earned badge: push the award and
credit the badge points. -/
def applyAward (today : Int) (u : User) (b : Badge) : User :=
  { u with
    badges := u.badges ++ [({ badgeId := b.badgeId, earnedAt := today } : BadgeAward)]
    totalPoints := u.totalPoints + b.points }

/-- A sequence of happy-path badge evaluations at the given days. -/
def evalSeq (s : EngineState) (days : List Int) : EngineState :=
  days.foldl (fun t d => (evaluate t d).1) s

/-- The key getUserRank counts on: its own metric switch, whose default
branch (reached for longestWorkoutStreak among others) counts on
totalPoints. -/
def rankCountKey (metric : String) (u : User) : Int :=
  if metric == "totalPoints" then u.totalPoints
  else if metric == "currentWorkoutStreak" then u.currentWorkoutStreak
  else u.totalPoints

/-- A fresh user, as the User schema defaults create one. -/
def baseUser : User :=
  { userId := 1
    name := "Ada"
    createdAt := 0
    totalPoints := 0
    currentWorkoutStreak := 0
    longestWorkoutStreak := 0
    lastWorkoutDate := none
    badges := []
    accountStatus := AccountStatus.active }

/-- A workout_completed ledger entry on the given day, as the workout
controller creates it. -/
def workoutLogOn (d : Int) : LogEntry :=
  { userId := 1
    activityType := "workout_completed"
    description := "Completed day 1 of workout plan"
    day := d
    pointsEarned := 15
    metaPostType := none }

/-- A user two days into a streak who logged workouts yesterday (day 9)
and today (day 10). -/
def streakDemoState : EngineState :=
  { user := { baseUser with
      currentWorkoutStreak := 2
      longestWorkoutStreak := 2
      lastWorkoutDate := some 9 }
    catalog := []
    log := [workoutLogOn 9, workoutLogOn 10]
    bio := []
    goals := []
    notifs := [] }

/-- A user about to reach the 7-day milestone on day 10. -/
def milestoneDemoState : EngineState :=
  { user := { baseUser with
      currentWorkoutStreak := 6
      longestWorkoutStreak := 6
      lastWorkoutDate := some 9
      totalPoints := 90 }
    catalog := []
    log := [workoutLogOn 9, workoutLogOn 10]
    bio := []
    goals := []
    notifs := [] }

/-- A user with a 5-day streak whose last workout was day 7; swept on
day 10. -/
def sweepDemoState : EngineState :=
  { user := { baseUser with
      currentWorkoutStreak := 5
      longestWorkoutStreak := 5
      lastWorkoutDate := some 7 }
    catalog := []
    log := [workoutLogOn 7]
    bio := []
    goals := []
    notifs := [] }

/-- An active streak badge awarded at a 1-day workout streak. -/
def demoBadge : Badge :=
  { badgeId := 100
    name := "First Workout"
    criteria := { ctype := "streak", target := 1, metric := "workout_streak" }
    points := 10
    isActive := true }

/-- A user with a 1-day streak and the demo badge not yet earned. -/
def badgeDemoState : EngineState :=
  { user := { baseUser with
      currentWorkoutStreak := 1
      longestWorkoutStreak := 1
      lastWorkoutDate := some 10 }
    catalog := [demoBadge]
    log := [workoutLogOn 10]
    bio := []
    goals := []
    notifs := [] }

/-- A fresh state for exercising awardPoints. -/
def pointsDemoState : EngineState :=
  { user := baseUser
    catalog := []
    log := []
    bio := []
    goals := []
    notifs := [] }

/-- A fresh state with the demo badge catalog, start state for the
invariant claim's witness. -/
def invDemoState : EngineState :=
  { user := baseUser
    catalog := [demoBadge]
    log := [workoutLogOn 10]
    bio := []
    goals := []
    notifs := [] }

/-- A sample operation sequence: qualifying event, points credit,
sweep, badge evaluation. -/
def demoOps : List Op :=
  [Op.qualifying 10, Op.credit 15 "Completed workout day" 10,
   Op.sweep 13, Op.evalBadges 13]

/-- Active user with zero points but the longest streak. -/
def rankUserA : User :=
  { baseUser with userId := 1, name := "A", longestWorkoutStreak := 5 }

/-- Active user with the most points but no streak. -/
def rankUserB : User :=
  { baseUser with userId := 2, name := "B", totalPoints := 10 }

def rankDemoUsers : List User := [rankUserA, rankUserB]

/-- Two active users tied on totalPoints. -/
def tieUserA : User :=
  { baseUser with userId := 1, name := "A", createdAt := 0, totalPoints := 100 }

def tieUserB : User :=
  { baseUser with userId := 2, name := "B", createdAt := 1, totalPoints := 100 }

def tieUsers : List User := [tieUserA, tieUserB]

/-! Helper lemmas about checkStreakMilestones. -/

theorem major_mem_milestones : ∀ x ∈ majorMilestoneValues, x ∈ streakMilestoneValues := by
  decide

theorem checkStreakMilestones_fst_lastWorkoutDate (u : User) (t : Int) :
    (checkStreakMilestones u t).1.lastWorkoutDate = u.lastWorkoutDate := by
  simp only [checkStreakMilestones]
  split_ifs <;> rfl

theorem checkStreakMilestones_fst_currentStreak (u : User) (t : Int) :
    (checkStreakMilestones u t).1.currentWorkoutStreak = u.currentWorkoutStreak := by
  simp only [checkStreakMilestones]
  split_ifs <;> rfl

theorem checkStreakMilestones_fst_longestStreak (u : User) (t : Int) :
    (checkStreakMilestones u t).1.longestWorkoutStreak = u.longestWorkoutStreak := by
  simp only [checkStreakMilestones]
  split_ifs <;> rfl

theorem checkStreakMilestones_fst_userId (u : User) (t : Int) :
    (checkStreakMilestones u t).1.userId = u.userId := by
  simp only [checkStreakMilestones]
  split_ifs <;> rfl

theorem checkStreakMilestones_fst_badges (u : User) (t : Int) :
    (checkStreakMilestones u t).1.badges = u.badges := by
  simp only [checkStreakMilestones]
  split_ifs <;> rfl

theorem checkStreakMilestones_notifs_of_mem (u : User) (t : Int)
    (h : u.currentWorkoutStreak ∈ streakMilestoneValues) :
    (checkStreakMilestones u t).2.2 =
      [{ userId := u.userId
         kind := NotifKind.streakMilestone u.currentWorkoutStreak
         priority := "high" }] := by
  simp only [checkStreakMilestones]
  rw [if_pos h]
  split_ifs <;> rfl

theorem checkStreakMilestones_notifs_of_not_mem (u : User) (t : Int)
    (h : u.currentWorkoutStreak ∉ streakMilestoneValues) :
    (checkStreakMilestones u t).2.2 = [] := by
  simp only [checkStreakMilestones]
  rw [if_neg h]

theorem checkStreakMilestones_of_major (u : User) (t : Int)
    (h : u.currentWorkoutStreak ∈ majorMilestoneValues) :
    (checkStreakMilestones u t).2.1 =
      [{ userId := u.userId
         activityType := "streak_milestone"
         description := "Reached " ++ toString u.currentWorkoutStreak ++ "-day streak"
         day := t
         pointsEarned := if u.currentWorkoutStreak = 7 then 50
           else if u.currentWorkoutStreak = 30 then 200 else 500
         metaPostType := none }] ∧
    (checkStreakMilestones u t).1.totalPoints = u.totalPoints +
      (if u.currentWorkoutStreak = 7 then 50
       else if u.currentWorkoutStreak = 30 then 200 else 500) := by
  simp only [checkStreakMilestones]
  rw [if_pos (major_mem_milestones _ h), if_pos h]
  exact ⟨rfl, rfl⟩

theorem checkStreakMilestones_of_not_major (u : User) (t : Int)
    (h : u.currentWorkoutStreak ∉ majorMilestoneValues) :
    (checkStreakMilestones u t).2.1 = [] ∧
    (checkStreakMilestones u t).1.totalPoints = u.totalPoints := by
  simp only [checkStreakMilestones]
  by_cases h1 : u.currentWorkoutStreak ∈ streakMilestoneValues
  · rw [if_pos h1, if_neg h]
    exact ⟨rfl, rfl⟩
  · rw [if_neg h1]
    exact ⟨rfl, rfl⟩

/-! Helper lemmas about updateWorkoutStreak. -/

theorem updateWorkoutStreak_of_lastDate_today (s : EngineState) (today : Int)
    (h : s.user.lastWorkoutDate = some today) :
    updateWorkoutStreak s today = (s, s.user.currentWorkoutStreak) := by
  simp only [updateWorkoutStreak]
  rw [if_pos h]

theorem updateWorkoutStreak_lastDate (s : EngineState) (today : Int)
    (hw : hasWorkoutLogOn s.log s.user.userId today = true) :
    (updateWorkoutStreak s today).1.user.lastWorkoutDate = some today := by
  by_cases h : s.user.lastWorkoutDate = some today
  · rw [updateWorkoutStreak_of_lastDate_today s today h]
    exact h
  · simp only [updateWorkoutStreak, hw]
    rw [if_neg h]
    simp only [if_true]
    exact checkStreakMilestones_fst_lastWorkoutDate _ _

/-- C2: same-day idempotence of the qualifying-event update.  After a
first updateWorkoutStreak call on a day with a workout_completed entry, a
second call on the same calendar day (with any further ledger entries the
caller appended, such as the duplicate per-event entry) leaves the whole
state unchanged and returns the current streak. -/
theorem c2_same_day_noop (s : EngineState) (today : Int) (extra : List LogEntry)
    (hw : hasWorkoutLogOn s.log s.user.userId today = true) :
    updateWorkoutStreak
        { (updateWorkoutStreak s today).1 with
          log := (updateWorkoutStreak s today).1.log ++ extra } today =
      ({ (updateWorkoutStreak s today).1 with
          log := (updateWorkoutStreak s today).1.log ++ extra },
        (updateWorkoutStreak s today).1.user.currentWorkoutStreak) :=
  updateWorkoutStreak_of_lastDate_today _ today (updateWorkoutStreak_lastDate s today hw)

/-- Witness for C2 at a concrete two-day streak state on day 10, with the
duplicate per-event ledger entry appended between the calls. -/
theorem c2_same_day_noop_witness :
    updateWorkoutStreak
        { (updateWorkoutStreak streakDemoState 10).1 with
          log := (updateWorkoutStreak streakDemoState 10).1.log ++ [workoutLogOn 10] } 10 =
      ({ (updateWorkoutStreak streakDemoState 10).1 with
          log := (updateWorkoutStreak streakDemoState 10).1.log ++ [workoutLogOn 10] },
        (updateWorkoutStreak streakDemoState 10).1.user.currentWorkoutStreak) :=
  c2_same_day_noop streakDemoState 10 [workoutLogOn 10] (by decide)

/-- C6: the daily sweep resets the streak to 0 and emits a streak-broken
notification carrying the prior length exactly when the streak is
positive and more than one day has passed since the last workout;
otherwise (no last workout date, last workout today or yesterday, or
streak already 0) it is the identity, and the sweep is idempotent. -/
theorem c6_daily_sweep (s : EngineState) (today : Int) :
    (∀ d, s.user.lastWorkoutDate = some d → today - d > 1 →
      s.user.currentWorkoutStreak > 0 →
      checkAndResetStreak s today =
        { s with
          user := { s.user with currentWorkoutStreak := 0 }
          notifs := s.notifs ++
            [{ userId := s.user.userId
               kind := NotifKind.streakBroken s.user.currentWorkoutStreak
               priority := "medium" }] }) ∧
    ((s.user.lastWorkoutDate = none ∨
        (∀ d, s.user.lastWorkoutDate = some d → today - d ≤ 1) ∨
        s.user.currentWorkoutStreak ≤ 0) →
      checkAndResetStreak s today = s) ∧
    checkAndResetStreak (checkAndResetStreak s today) today =
      checkAndResetStreak s today := by
  have hchar : ∀ d, s.user.lastWorkoutDate = some d → today - d > 1 →
      s.user.currentWorkoutStreak > 0 →
      checkAndResetStreak s today =
        { s with
          user := { s.user with currentWorkoutStreak := 0 }
          notifs := s.notifs ++
            [{ userId := s.user.userId
               kind := NotifKind.streakBroken s.user.currentWorkoutStreak
               priority := "medium" }] } := by
    intro d hd hgt hpos
    simp only [checkAndResetStreak, hd]
    rw [if_pos ⟨hgt, hpos⟩]
  have hnoop : (s.user.lastWorkoutDate = none ∨
      (∀ d, s.user.lastWorkoutDate = some d → today - d ≤ 1) ∨
      s.user.currentWorkoutStreak ≤ 0) →
      checkAndResetStreak s today = s := by
    intro h
    rcases hld : s.user.lastWorkoutDate with _ | d
    · simp only [checkAndResetStreak, hld]
    · simp only [checkAndResetStreak, hld]
      rw [if_neg]
      rintro ⟨hgt, hpos⟩
      rcases h with h | h | h
      · rw [hld] at h
        exact Option.noConfusion h
      · exact absurd hgt (not_lt.mpr (h d hld))
      · exact absurd hpos (not_lt.mpr h)
  refine ⟨hchar, hnoop, ?_⟩
  rcases hld : s.user.lastWorkoutDate with _ | d
  · have h1 : checkAndResetStreak s today = s := hnoop (Or.inl hld)
    rw [h1, h1]
  · by_cases hc : today - d > 1 ∧ s.user.currentWorkoutStreak > 0
    · have h1 := hchar d hld hc.1 hc.2
      rw [h1]
      simp only [checkAndResetStreak, hld]
      rw [if_neg]
      rintro ⟨_, hpos⟩
      exact lt_irrefl 0 hpos
    · have h1 : checkAndResetStreak s today = s := by
        simp only [checkAndResetStreak, hld]
        rw [if_neg hc]
      rw [h1, h1]

/-- Witness for C6 at a concrete state: a 5-day streak last fed on day 7
is reset by a sweep on day 10, and the streak-broken notification
carries 5. -/
theorem c6_daily_sweep_witness :
    checkAndResetStreak sweepDemoState 10 =
      { sweepDemoState with
        user := { sweepDemoState.user with currentWorkoutStreak := 0 }
        notifs := sweepDemoState.notifs ++
          [{ userId := sweepDemoState.user.userId
             kind := NotifKind.streakBroken sweepDemoState.user.currentWorkoutStreak
             priority := "medium" }] } :=
  (c6_daily_sweep sweepDemoState 10).1 7 rfl (by decide) (by decide)

/-- C8 (code bug): awardPoints is not atomic.  With a successful
user.save() and a failing ActivityLog.create(), the call raises, yet the
points are already credited and no ledger entry exists: a partial
application the claim says can never happen. -/
theorem c8_award_points_partial_application :
    (awardPoints pointsDemoState 10 "Completed workout day" 0 true false).1 =
      Except.error "ActivityLog create failed" ∧
    (awardPoints pointsDemoState 10 "Completed workout day" 0 true false).2.user.totalPoints =
      pointsDemoState.user.totalPoints + 10 ∧
    (awardPoints pointsDemoState 10 "Completed workout day" 0 true false).2.log =
      pointsDemoState.log :=
  ⟨rfl, rfl, rfl⟩

/-- C7 counterexample: for the metric longestWorkoutStreak, getUserRank
does not return 1 plus the number of users strictly greater on that
metric.  User 1 has the strictly largest longestWorkoutStreak, so the
spec formula gives rank 1, but the code's switch has no
longestWorkoutStreak case and falls back to counting totalPoints, giving
rank 2. -/
theorem c7_counterexample :
    getUserRank rankDemoUsers 1 "longestWorkoutStreak" = some 2 ∧
    specRankOf rankDemoUsers 1 "longestWorkoutStreak" = some 1 ∧
    getUserRank rankDemoUsers 1 "longestWorkoutStreak" ≠
      specRankOf rankDemoUsers 1 "longestWorkoutStreak" := by
  refine ⟨by decide, by decide, by decide⟩

/-- C7 amended: for the metrics totalPoints and currentWorkoutStreak,
getUserRank returns 1 plus the count of active users strictly greater on
that same metric; for every other metric string, including
longestWorkoutStreak, it falls back to the totalPoints count. -/
theorem c7_rank_amended (users : List User) (uid : Nat) (metric : String) :
    ((metric = "totalPoints" ∨ metric = "currentWorkoutStreak") →
      getUserRank users uid metric = specRankOf users uid metric) ∧
    ((metric ≠ "totalPoints" ∧ metric ≠ "currentWorkoutStreak") →
      getUserRank users uid metric = getUserRank users uid "totalPoints") := by
  constructor
  · rintro (rfl | rfl) <;>
      · simp only [getUserRank, specRankOf, specMetricValue]
        cases findUserById users uid <;> simp [Nat.add_comm]
  · rintro ⟨h1, h2⟩
    simp only [getUserRank]
    cases hf : findUserById users uid with
    | none => rfl
    | some u =>
      dsimp only
      rw [if_neg (by simpa using h1), if_neg (by simpa using h2), if_pos (by simp)]

/-- Witness for C7's amended theorem: on the two demo users the
totalPoints rank of user 2 agrees with the spec formula. -/
theorem c7_rank_amended_witness :
    getUserRank rankDemoUsers 2 "totalPoints" = specRankOf rankDemoUsers 2 "totalPoints" :=
  (c7_rank_amended rankDemoUsers 2 "totalPoints").1 (Or.inl rfl)

/-- When a workout was logged today and the streak was not already fed
today, updateWorkoutStreak builds the updated user u1 and commits the
result of checkStreakMilestones on it. -/
theorem updateWorkoutStreak_result (s : EngineState) (today : Int)
    (hw : hasWorkoutLogOn s.log s.user.userId today = true)
    (hne : s.user.lastWorkoutDate ≠ some today) :
    ∃ u1 : User,
      (updateWorkoutStreak s today).1.user = (checkStreakMilestones u1 today).1 ∧
      (updateWorkoutStreak s today).1.log = s.log ++ (checkStreakMilestones u1 today).2.1 ∧
      (updateWorkoutStreak s today).1.notifs =
        s.notifs ++ (checkStreakMilestones u1 today).2.2 ∧
      (updateWorkoutStreak s today).2 =
        (checkStreakMilestones u1 today).1.currentWorkoutStreak ∧
      u1.userId = s.user.userId ∧
      u1.totalPoints = s.user.totalPoints ∧
      u1.currentWorkoutStreak =
        (if hasWorkoutLogOn s.log s.user.userId (today - 1) = true ∨
            s.user.lastWorkoutDate = none
         then s.user.currentWorkoutStreak + 1 else 1) ∧
      u1.longestWorkoutStreak =
        (if u1.currentWorkoutStreak > s.user.longestWorkoutStreak
         then u1.currentWorkoutStreak else s.user.longestWorkoutStreak) ∧
      u1.lastWorkoutDate = some today ∧
      u1.badges = s.user.badges := by
  simp only [updateWorkoutStreak, hw]
  rw [if_neg hne, if_pos trivial]
  exact ⟨_, rfl, rfl, rfl, rfl, rfl, rfl, rfl, rfl, rfl, rfl⟩

/-- C1: a qualifying event for today (with the ledger and
lastWorkoutDate consistent, as every engine-produced state is: there is a
workout entry for yesterday exactly when lastWorkoutDate is yesterday)
increments the streak when lastWorkoutDate is yesterday or absent,
restarts it at 1 when lastWorkoutDate is older than yesterday, updates
longestStreak to the max, and sets lastWorkoutDate to today. -/
theorem c1_streak_transition (s : EngineState) (today : Int)
    (hw : hasWorkoutLogOn s.log s.user.userId today = true)
    (hcons : ∀ d, s.user.lastWorkoutDate = some d →
      hasWorkoutLogOn s.log s.user.userId (today - 1) = decide (d = today - 1))
    (hne : s.user.lastWorkoutDate ≠ some today) :
    ((s.user.lastWorkoutDate = none ∨ s.user.lastWorkoutDate = some (today - 1)) →
      (updateWorkoutStreak s today).1.user.currentWorkoutStreak =
        s.user.currentWorkoutStreak + 1) ∧
    ((∃ d, s.user.lastWorkoutDate = some d ∧ d < today - 1) →
      (updateWorkoutStreak s today).1.user.currentWorkoutStreak = 1) ∧
    (updateWorkoutStreak s today).1.user.longestWorkoutStreak =
      max s.user.longestWorkoutStreak
        (updateWorkoutStreak s today).1.user.currentWorkoutStreak ∧
    (updateWorkoutStreak s today).1.user.lastWorkoutDate = some today := by
  obtain ⟨u1, hueq, -, -, -, -, -, hcur, hlong, hlast, -⟩ :=
    updateWorkoutStreak_result s today hw hne
  have hres_cur : (updateWorkoutStreak s today).1.user.currentWorkoutStreak =
      u1.currentWorkoutStreak := by
    rw [hueq, checkStreakMilestones_fst_currentStreak]
  have hres_long : (updateWorkoutStreak s today).1.user.longestWorkoutStreak =
      u1.longestWorkoutStreak := by
    rw [hueq, checkStreakMilestones_fst_longestStreak]
  have hres_last : (updateWorkoutStreak s today).1.user.lastWorkoutDate =
      u1.lastWorkoutDate := by
    rw [hueq, checkStreakMilestones_fst_lastWorkoutDate]
  refine ⟨?_, ?_, ?_, by rw [hres_last, hlast]⟩
  · rintro (h | h)
    · rw [hres_cur, hcur, if_pos (Or.inr h)]
    · have hy : hasWorkoutLogOn s.log s.user.userId (today - 1) = true := by
        rw [hcons (today - 1) h]
        simp
      rw [hres_cur, hcur, if_pos (Or.inl hy)]
  · rintro ⟨d, hd, hlt⟩
    have hy : hasWorkoutLogOn s.log s.user.userId (today - 1) = false := by
      rw [hcons d hd]
      simp [ne_of_lt hlt]
    rw [hres_cur, hcur, if_neg]
    rintro (h | h)
    · rw [hy] at h
      exact Bool.noConfusion h
    · rw [hd] at h
      exact Option.noConfusion h
  · rw [hres_long, hres_cur, hlong]
    rcases lt_or_le s.user.longestWorkoutStreak u1.currentWorkoutStreak with h | h
    · rw [if_pos h, max_eq_right h.le]
    · rw [if_neg (not_lt.mpr h), max_eq_left h]

/-- Witness for C1: a 2-day streak last fed yesterday becomes a 3-day
streak on today's qualifying event. -/
theorem c1_streak_transition_witness :
    (updateWorkoutStreak streakDemoState 10).1.user.currentWorkoutStreak =
      streakDemoState.user.currentWorkoutStreak + 1 :=
  (c1_streak_transition streakDemoState 10 (by decide)
      (fun d hd => by
        obtain rfl : (9 : Int) = d := Option.some.inj hd
        decide)
      (by decide)).1 (Or.inr (by decide))

/-- C5: a qualifying-event update that actually fires emits exactly one
milestone notification carrying the new streak when that streak is in
the milestone set and none otherwise; for the 7/30/100 subset it
additionally credits 50/200/500 bonus points and appends exactly one
streak_milestone ledger entry, and otherwise leaves points and the
ledger unchanged. -/
theorem c5_milestones (s : EngineState) (today : Int)
    (hw : hasWorkoutLogOn s.log s.user.userId today = true)
    (hne : s.user.lastWorkoutDate ≠ some today) :
    ((updateWorkoutStreak s today).1.user.currentWorkoutStreak ∈ streakMilestoneValues →
      (updateWorkoutStreak s today).1.notifs = s.notifs ++
        [{ userId := s.user.userId
           kind := NotifKind.streakMilestone
             (updateWorkoutStreak s today).1.user.currentWorkoutStreak
           priority := "high" }]) ∧
    ((updateWorkoutStreak s today).1.user.currentWorkoutStreak ∉ streakMilestoneValues →
      (updateWorkoutStreak s today).1.notifs = s.notifs) ∧
    ((updateWorkoutStreak s today).1.user.currentWorkoutStreak ∈ majorMilestoneValues →
      (updateWorkoutStreak s today).1.log = s.log ++
        [{ userId := s.user.userId
           activityType := "streak_milestone"
           description := "Reached " ++
             toString (updateWorkoutStreak s today).1.user.currentWorkoutStreak ++
             "-day streak"
           day := today
           pointsEarned :=
             if (updateWorkoutStreak s today).1.user.currentWorkoutStreak = 7 then 50
             else if (updateWorkoutStreak s today).1.user.currentWorkoutStreak = 30 then 200
             else 500
           metaPostType := none }] ∧
      (updateWorkoutStreak s today).1.user.totalPoints = s.user.totalPoints +
        (if (updateWorkoutStreak s today).1.user.currentWorkoutStreak = 7 then 50
         else if (updateWorkoutStreak s today).1.user.currentWorkoutStreak = 30 then 200
         else 500)) ∧
    ((updateWorkoutStreak s today).1.user.currentWorkoutStreak ∉ majorMilestoneValues →
      (updateWorkoutStreak s today).1.log = s.log ∧
      (updateWorkoutStreak s today).1.user.totalPoints = s.user.totalPoints) := by
  obtain ⟨u1, hueq, hlog, hnotifs, -, huid, hpts, -, -, -, -⟩ :=
    updateWorkoutStreak_result s today hw hne
  have hres_cur : (updateWorkoutStreak s today).1.user.currentWorkoutStreak =
      u1.currentWorkoutStreak := by
    rw [hueq, checkStreakMilestones_fst_currentStreak]
  refine ⟨?_, ?_, ?_, ?_⟩
  · intro h
    rw [hres_cur] at h
    rw [hnotifs, checkStreakMilestones_notifs_of_mem u1 today h, huid, hres_cur]
  · intro h
    rw [hres_cur] at h
    rw [hnotifs, checkStreakMilestones_notifs_of_not_mem u1 today h, List.append_nil]
  · intro h
    rw [hres_cur] at h
    obtain ⟨hl, hp⟩ := checkStreakMilestones_of_major u1 today h
    constructor
    · rw [hlog, hl, huid, hres_cur]
    · rw [hueq, hp, hpts, checkStreakMilestones_fst_currentStreak]
  · intro h
    rw [hres_cur] at h
    obtain ⟨hl, hp⟩ := checkStreakMilestones_of_not_major u1 today h
    constructor
    · rw [hlog, hl, List.append_nil]
    · rw [hueq, hp, hpts]

/-- Witness for C5: a user reaching a 7-day streak on day 10 gains
exactly the 50-point bonus. -/
theorem c5_milestones_witness :
    (updateWorkoutStreak milestoneDemoState 10).1.user.totalPoints =
      milestoneDemoState.user.totalPoints +
        (if (updateWorkoutStreak milestoneDemoState 10).1.user.currentWorkoutStreak = 7
         then 50
         else if (updateWorkoutStreak milestoneDemoState 10).1.user.currentWorkoutStreak = 30
         then 200
         else 500) :=
  ((c5_milestones milestoneDemoState 10 (by decide) (by decide)).2.2.1 (by decide)).2

/-- C9 counterexample: two runs of the leaderboard query over the same
data need not agree.  With two active users tied on totalPoints, both
orderings are descending on the code's sort key (it sorts on the metric
alone, with no secondary tie-break), so both rendered leaderboards are
possible results of getLeaderboard, and they differ. -/
theorem c9_counterexample :
    ∃ r1 r2 : List LeaderboardEntry,
      getLeaderboardResult tieUsers 10 "totalPoints" r1 ∧
      getLeaderboardResult tieUsers 10 "totalPoints" r2 ∧ r1 ≠ r2 := by
  refine ⟨renderLeaderboard 0 [tieUserA, tieUserB],
    renderLeaderboard 0 [tieUserB, tieUserA],
    ⟨[tieUserA, tieUserB], by decide, by decide, rfl⟩,
    ⟨[tieUserB, tieUserA], by decide, by decide, rfl⟩, by decide⟩

/-- C9 amended: getUserRank is deterministic and tie-consistent — two
users with the same value of the key the code counts on (totalPoints for
the totalPoints metric and for every unrecognized metric,
currentWorkoutStreak for that metric) receive the same rank.  The
leaderboard ordering itself is only constrained to be descending on the
chosen metric, so the relative order of tied users is not determined. -/
theorem c9_rank_tie_consistent (users : List User) (uid1 uid2 : Nat) (metric : String)
    (u1 u2 : User) (h1 : findUserById users uid1 = some u1)
    (h2 : findUserById users uid2 = some u2)
    (hkey : rankCountKey metric u1 = rankCountKey metric u2) :
    getUserRank users uid1 metric = getUserRank users uid2 metric := by
  simp only [getUserRank, h1, h2]
  unfold rankCountKey at hkey
  by_cases hm : (metric == "totalPoints") = true
  · rw [if_pos hm, if_pos hm] at hkey
    rw [if_pos hm, if_pos hm, hkey]
  · rw [if_neg hm, if_neg hm] at hkey
    rw [if_neg hm, if_neg hm]
    by_cases hm2 : (metric == "currentWorkoutStreak") = true
    · rw [if_pos hm2, if_pos hm2] at hkey
      rw [if_pos hm2, if_pos hm2, hkey]
    · rw [if_neg hm2, if_neg hm2] at hkey
      rw [if_neg hm2, if_neg hm2, hkey]

/-- Witness for C9's amended theorem: the two tied demo users get the
same totalPoints rank. -/
theorem c9_rank_tie_consistent_witness :
    getUserRank tieUsers 1 "totalPoints" = getUserRank tieUsers 2 "totalPoints" :=
  c9_rank_tie_consistent tieUsers 1 2 "totalPoints" tieUserA tieUserB
    (by decide) (by decide) (by decide)

/-- If the badge loop succeeds under some oracle, it took the same steps
the all-success oracle takes and produced the same accumulator. -/
theorem awardBadgesLoop_ok_trueOracle (ou : User) (bio : List BiometricEntry)
    (goals : List GoalRec) (today : Int) (eids : List Nat) (oracle : Nat → Bool) :
    ∀ (bs : List Badge) (acc acc' : EvalAcc),
      awardBadgesLoop ou bio goals today eids oracle bs acc = Except.ok acc' →
      awardBadgesLoop ou bio goals today eids trueOracle bs acc = Except.ok acc' := by
  have htrue : ∀ k, ¬ (trueOracle k = false) := by
    intro k h
    simp [trueOracle] at h
  intro bs
  induction bs with
  | nil =>
    intro acc acc' h
    exact h
  | cons badge rest ih =>
    intro acc acc' h
    simp only [awardBadgesLoop] at h ⊢
    by_cases hc : eids.contains badge.badgeId = true
    · rw [if_pos hc] at h ⊢
      exact ih _ _ h
    · rw [if_neg hc] at h ⊢
      by_cases ho : oracle acc.k = false
      · rw [if_pos ho] at h
        exact Except.noConfusion h
      · rw [if_neg ho] at h
        rw [if_neg (htrue _)]
        by_cases hs : badgeSatisfied ou acc.log bio goals today badge = true
        · rw [if_pos hs] at h ⊢
          by_cases ho2 : oracle (acc.k + 1) = false
          · rw [if_pos ho2] at h
            exact Except.noConfusion h
          · rw [if_neg ho2] at h
            rw [if_neg (htrue _)]
            by_cases ho3 : oracle (acc.k + 1 + 1) = false
            · rw [if_pos ho3] at h
              exact Except.noConfusion h
            · rw [if_neg ho3] at h
              rw [if_neg (htrue _)]
              exact ih _ _ h
        · rw [if_neg hs] at h ⊢
          exact ih _ _ h

/-- C10: checkAndAwardBadges never propagates an error.  Whatever DB
calls fail, the call returns a plain list, and that list is either the
empty list or exactly the list the fault-free run returns — a failed run
is indistinguishable from a run that found no new badges. -/
theorem c10_badge_evaluation_never_raises (s : EngineState) (today : Int)
    (oracle : Nat → Bool) :
    (checkAndAwardBadges s today oracle).2 = [] ∨
    (checkAndAwardBadges s today oracle).2 = (checkAndAwardBadges s today trueOracle).2 := by
  have htrue : ∀ k, ¬ (trueOracle k = false) := by
    intro k h
    simp [trueOracle] at h
  by_cases h0 : oracle 0 = false
  · left
    simp only [checkAndAwardBadges]
    rw [if_pos h0]
  · by_cases h1 : oracle 1 = false
    · left
      simp only [checkAndAwardBadges]
      rw [if_neg h0, if_pos h1]
    · simp only [checkAndAwardBadges]
      rw [if_neg h0, if_neg h1, if_neg (htrue 0), if_neg (htrue 1)]
      cases hloop : awardBadgesLoop s.user s.bio s.goals today
          (s.user.badges.map BadgeAward.badgeId) oracle
          (s.catalog.filter fun b => b.isActive)
          { k := 2, user := s.user, log := s.log, notifs := s.notifs, newBadges := [] } with
      | error acc =>
        left
        rfl
      | ok acc =>
        have hloopT := awardBadgesLoop_ok_trueOracle s.user s.bio s.goals today
          (s.user.badges.map BadgeAward.badgeId) oracle
          (s.catalog.filter fun b => b.isActive)
          { k := 2, user := s.user, log := s.log, notifs := s.notifs, newBadges := [] }
          acc hloop
        rw [hloopT]
        dsimp only
        by_cases hlen : acc.newBadges.length > 0
        · rw [if_pos hlen, if_pos hlen]
          by_cases ho : oracle acc.k = false
          · rw [if_pos ho]
            left
            rfl
          · rw [if_neg ho, if_neg (htrue acc.k)]
            right
            rfl
        · rw [if_neg hlen, if_neg hlen]
          right
          rfl

/-! Helper lemmas: badge criteria only read workout_completed, meal_logged
and community_post ledger entries, so appending badge_earned entries does
not change any criterion. -/

theorem countLogs_append_irrel (log extra : List LogEntry) (p : LogEntry → Bool)
    (h : ∀ e ∈ extra, p e = false) :
    countLogs (log ++ extra) p = countLogs log p := by
  have hnil : extra.filter p = [] := by
    rw [List.filter_eq_nil_iff]
    intro a ha
    simp [h a ha]
  unfold countLogs
  rw [List.filter_append, hnil, List.append_nil]

theorem any_append_irrel (log extra : List LogEntry) (p : LogEntry → Bool)
    (h : ∀ e ∈ extra, p e = false) :
    (log ++ extra).any p = log.any p := by
  have hf : extra.any p = false := by
    rw [List.any_eq_false]
    intro a ha
    simp [h a ha]
  rw [List.any_append, hf, Bool.or_false]

theorem checkCountBadge_append (log extra : List LogEntry) (goals : List GoalRec)
    (uid : Nat) (b : Badge)
    (hextra : ∀ e ∈ extra, e.activityType = "badge_earned") :
    checkCountBadge (log ++ extra) goals uid b = checkCountBadge log goals uid b := by
  have hba : ∀ (t : String), ("badge_earned" == t) = false →
      ∀ e ∈ extra, (e.activityType == t) = false := by
    intro t ht e he
    rw [hextra e he]
    exact ht
  unfold checkCountBadge
  split_ifs with h1 h2 h3 h4
  · rw [countLogs_append_irrel log extra _ (fun e he => by
      rw [hba "workout_completed" (by decide) e he, Bool.and_false])]
  · rw [countLogs_append_irrel log extra _ (fun e he => by
      rw [hba "meal_logged" (by decide) e he, Bool.and_false])]
  · rfl
  · rw [countLogs_append_irrel log extra _ (fun e he => by
      rw [hba "community_post" (by decide) e he, Bool.and_false, Bool.false_and])]
  · rfl

theorem checkCustomBadge_append (log extra : List LogEntry) (goals : List GoalRec)
    (uid : Nat) (b : Badge)
    (hextra : ∀ e ∈ extra, e.activityType = "badge_earned") :
    checkCustomBadge (log ++ extra) goals uid b = checkCustomBadge log goals uid b := by
  have hba : ∀ (t : String), ("badge_earned" == t) = false →
      ∀ e ∈ extra, (e.activityType == t) = false := by
    intro t ht e he
    rw [hextra e he]
    exact ht
  unfold checkCustomBadge
  split_ifs with h1 h2
  · rfl
  · rw [any_append_irrel log extra _ (fun e he => by
      rw [hba "community_post" (by decide) e he, Bool.and_false])]
  · rfl

theorem badgeSatisfied_append (u : User) (log extra : List LogEntry)
    (bio : List BiometricEntry) (goals : List GoalRec) (today : Int) (b : Badge)
    (hextra : ∀ e ∈ extra, e.activityType = "badge_earned") :
    badgeSatisfied u (log ++ extra) bio goals today b =
      badgeSatisfied u log bio goals today b := by
  unfold badgeSatisfied
  split_ifs with h1 h2 h3 h4
  · rfl
  · exact checkCountBadge_append log extra goals u.userId b hextra
  · rfl
  · exact checkCustomBadge_append log extra goals u.userId b hextra
  · rfl

theorem badgeSatisfied_user_congr (u1 u2 : User) (log : List LogEntry)
    (bio : List BiometricEntry) (goals : List GoalRec) (today : Int) (b : Badge)
    (hid : u1.userId = u2.userId)
    (hstreak : u1.currentWorkoutStreak = u2.currentWorkoutStreak) :
    badgeSatisfied u1 log bio goals today b = badgeSatisfied u2 log bio goals today b := by
  simp only [badgeSatisfied, checkStreakBadge, hid, hstreak]

/-! Helper lemmas about folding applyAward. -/

theorem foldl_applyAward_badges (today : Int) (bs : List Badge) :
    ∀ u : User, (bs.foldl (applyAward today) u).badges =
      u.badges ++
        bs.map (fun b => ({ badgeId := b.badgeId, earnedAt := today } : BadgeAward)) := by
  induction bs with
  | nil =>
    intro u
    simp
  | cons b rest ih =>
    intro u
    simp only [List.foldl_cons, List.map_cons]
    rw [ih]
    simp [applyAward]

theorem foldl_applyAward_userId (today : Int) (bs : List Badge) :
    ∀ u : User, (bs.foldl (applyAward today) u).userId = u.userId := by
  induction bs with
  | nil =>
    intro u
    rfl
  | cons b rest ih =>
    intro u
    simp only [List.foldl_cons]
    rw [ih]
    rfl

theorem foldl_applyAward_currentStreak (today : Int) (bs : List Badge) :
    ∀ u : User, (bs.foldl (applyAward today) u).currentWorkoutStreak =
      u.currentWorkoutStreak := by
  induction bs with
  | nil =>
    intro u
    rfl
  | cons b rest ih =>
    intro u
    simp only [List.foldl_cons]
    rw [ih]
    rfl

theorem foldl_applyAward_longestStreak (today : Int) (bs : List Badge) :
    ∀ u : User, (bs.foldl (applyAward today) u).longestWorkoutStreak =
      u.longestWorkoutStreak := by
  induction bs with
  | nil =>
    intro u
    rfl
  | cons b rest ih =>
    intro u
    simp only [List.foldl_cons]
    rw [ih]
    rfl

theorem foldl_applyAward_points (today : Int) (bs : List Badge) :
    ∀ u : User, (bs.foldl (applyAward today) u).totalPoints =
      u.totalPoints + (bs.map Badge.points).sum := by
  induction bs with
  | nil =>
    intro u
    simp
  | cons b rest ih =>
    intro u
    simp only [List.foldl_cons, List.map_cons, List.sum_cons]
    rw [ih]
    simp [applyAward, add_assoc]

/-! Unfolding equations for the badge loop under the all-success oracle. -/

theorem awardBadgesLoop_cons_skip (ou : User) (bio : List BiometricEntry)
    (goals : List GoalRec) (today : Int) (eids : List Nat) (oracle : Nat → Bool)
    (badge : Badge) (rest : List Badge) (acc : EvalAcc)
    (hc : eids.contains badge.badgeId = true) :
    awardBadgesLoop ou bio goals today eids oracle (badge :: rest) acc =
      awardBadgesLoop ou bio goals today eids oracle rest acc := by
  simp only [awardBadgesLoop]
  rw [if_pos hc]

theorem awardBadgesLoop_cons_earned (ou : User) (bio : List BiometricEntry)
    (goals : List GoalRec) (today : Int) (eids : List Nat)
    (badge : Badge) (rest : List Badge) (acc : EvalAcc)
    (hc : ¬ eids.contains badge.badgeId = true)
    (hs : badgeSatisfied ou acc.log bio goals today badge = true) :
    awardBadgesLoop ou bio goals today eids trueOracle (badge :: rest) acc =
      awardBadgesLoop ou bio goals today eids trueOracle rest
        { k := acc.k + 1 + 1 + 1
          user := applyAward today acc.user badge
          log := acc.log ++ [badgeEarnedLogEntry ou.userId today badge]
          notifs := acc.notifs ++ [badgeEarnedNotif ou.userId badge]
          newBadges := acc.newBadges ++ [badge] } := by
  have htrue : ∀ k, ¬ (trueOracle k = false) := fun k h => by simp [trueOracle] at h
  simp only [awardBadgesLoop]
  rw [if_neg hc, if_neg (htrue _), if_pos hs, if_neg (htrue _), if_neg (htrue _)]
  rfl

theorem awardBadgesLoop_cons_not_earned (ou : User) (bio : List BiometricEntry)
    (goals : List GoalRec) (today : Int) (eids : List Nat)
    (badge : Badge) (rest : List Badge) (acc : EvalAcc)
    (hc : ¬ eids.contains badge.badgeId = true)
    (hs : ¬ badgeSatisfied ou acc.log bio goals today badge = true) :
    awardBadgesLoop ou bio goals today eids trueOracle (badge :: rest) acc =
      awardBadgesLoop ou bio goals today eids trueOracle rest
        { acc with k := acc.k + 1 } := by
  have htrue : ∀ k, ¬ (trueOracle k = false) := fun k h => by simp [trueOracle] at h
  simp only [awardBadgesLoop]
  rw [if_neg hc, if_neg (htrue _), if_neg hs]

/-- Full characterization of a fault-free badge loop run: it succeeds,
awarding exactly the active badges not in earnedBadgeIds whose criterion
holds, in catalog order, appending one badge_earned entry per award and
applying one in-memory award per badge. -/
theorem awardBadgesLoop_spec (ou : User) (bio : List BiometricEntry)
    (goals : List GoalRec) (today : Int) (eids : List Nat) :
    ∀ (bs : List Badge) (acc : EvalAcc),
      ∃ (acc' : EvalAcc) (added : List Badge),
        awardBadgesLoop ou bio goals today eids trueOracle bs acc = Except.ok acc' ∧
        acc'.user = added.foldl (applyAward today) acc.user ∧
        acc'.newBadges = acc.newBadges ++ added ∧
        acc'.log = acc.log ++ added.map (badgeEarnedLogEntry ou.userId today) ∧
        added.Sublist bs ∧
        (∀ b ∈ added, eids.contains b.badgeId = false ∧
          badgeSatisfied ou acc.log bio goals today b = true) ∧
        (∀ b ∈ bs, eids.contains b.badgeId = true ∨
          b.badgeId ∈ added.map Badge.badgeId ∨
          badgeSatisfied ou acc.log bio goals today b = false) := by
  intro bs
  induction bs with
  | nil =>
    intro acc
    refine ⟨acc, [], rfl, rfl, by simp, by simp, List.nil_sublist _, ?_, ?_⟩
    · intro b hb
      exact absurd hb (List.not_mem_nil b)
    · intro b hb
      exact absurd hb (List.not_mem_nil b)
  | cons badge rest ih =>
    intro acc
    by_cases hc : eids.contains badge.badgeId = true
    · obtain ⟨acc', added, hok, hu, hnb, hl, hsub, hadded, hall⟩ := ih acc
      refine ⟨acc', added, ?_, hu, hnb, hl, List.Sublist.cons badge hsub, hadded, ?_⟩
      · rw [awardBadgesLoop_cons_skip ou bio goals today eids trueOracle badge rest acc hc]
        exact hok
      · intro b hb
        rcases List.mem_cons.mp hb with rfl | hb
        · exact Or.inl hc
        · exact hall b hb
    · by_cases hs : badgeSatisfied ou acc.log bio goals today badge = true
      · obtain ⟨acc', added, hok, hu, hnb, hl, hsub, hadded, hall⟩ :=
          ih { k := acc.k + 1 + 1 + 1
               user := applyAward today acc.user badge
               log := acc.log ++ [badgeEarnedLogEntry ou.userId today badge]
               notifs := acc.notifs ++ [badgeEarnedNotif ou.userId badge]
               newBadges := acc.newBadges ++ [badge] }
        have hextra : ∀ e ∈ [badgeEarnedLogEntry ou.userId today badge],
            e.activityType = "badge_earned" := by
          intro e he
          rw [List.mem_singleton.mp he]
          rfl
        have htrans : ∀ b : Badge,
            badgeSatisfied ou (acc.log ++ [badgeEarnedLogEntry ou.userId today badge])
              bio goals today b =
            badgeSatisfied ou acc.log bio goals today b := by
          intro b
          exact badgeSatisfied_append ou acc.log _ bio goals today b hextra
        refine ⟨acc', badge :: added, ?_, ?_, ?_, ?_,
          List.Sublist.cons₂ badge hsub, ?_, ?_⟩
        · rw [awardBadgesLoop_cons_earned ou bio goals today eids badge rest acc hc hs]
          exact hok
        · rw [hu, List.foldl_cons]
        · rw [hnb]
          show acc.newBadges ++ [badge] ++ added = acc.newBadges ++ (badge :: added)
          simp
        · rw [hl, List.map_cons]
          show acc.log ++ [badgeEarnedLogEntry ou.userId today badge] ++
              added.map (badgeEarnedLogEntry ou.userId today) =
            acc.log ++ (badgeEarnedLogEntry ou.userId today badge ::
              added.map (badgeEarnedLogEntry ou.userId today))
          simp
        · intro b hb
          rcases List.mem_cons.mp hb with rfl | hb
          · exact ⟨Bool.not_eq_true _ ▸ Bool.eq_false_iff.mpr hc, hs⟩
          · obtain ⟨h1, h2⟩ := hadded b hb
            exact ⟨h1, by rw [← htrans b]; exact h2⟩
        · intro b hb
          rcases List.mem_cons.mp hb with rfl | hb
          · exact Or.inr (Or.inl (by simp))
          · rcases hall b hb with h | h | h
            · exact Or.inl h
            · exact Or.inr (Or.inl (by simp [h]))
            · exact Or.inr (Or.inr (by rw [← htrans b]; exact h))
      · obtain ⟨acc', added, hok, hu, hnb, hl, hsub, hadded, hall⟩ :=
          ih { acc with k := acc.k + 1 }
        refine ⟨acc', added, ?_, hu, hnb, hl, List.Sublist.cons badge hsub, hadded, ?_⟩
        · rw [awardBadgesLoop_cons_not_earned ou bio goals today eids badge rest acc hc hs]
          exact hok
        · intro b hb
          rcases List.mem_cons.mp hb with rfl | hb
          · exact Or.inr (Or.inr (Bool.eq_false_iff.mpr hs))
          · exact hall b hb

/-- Full characterization of a fault-free checkAndAwardBadges run. -/
theorem evaluate_spec (s : EngineState) (today : Int) :
    ∃ added : List Badge,
      (evaluate s today).2 = added ∧
      (evaluate s today).1.user = added.foldl (applyAward today) s.user ∧
      (evaluate s today).1.catalog = s.catalog ∧
      (evaluate s today).1.bio = s.bio ∧
      (evaluate s today).1.goals = s.goals ∧
      (evaluate s today).1.log =
        s.log ++ added.map (badgeEarnedLogEntry s.user.userId today) ∧
      added.Sublist (s.catalog.filter fun b => b.isActive) ∧
      (∀ b ∈ added, (s.user.badges.map BadgeAward.badgeId).contains b.badgeId = false ∧
        badgeSatisfied s.user s.log s.bio s.goals today b = true) ∧
      (∀ b ∈ s.catalog.filter (fun b => b.isActive),
        (s.user.badges.map BadgeAward.badgeId).contains b.badgeId = true ∨
        b.badgeId ∈ added.map Badge.badgeId ∨
        badgeSatisfied s.user s.log s.bio s.goals today b = false) := by
  have htrue : ∀ k, ¬ (trueOracle k = false) := fun k h => by simp [trueOracle] at h
  obtain ⟨acc', added, hok, hu, hnb, hl, hsub, hadded, hall⟩ :=
    awardBadgesLoop_spec s.user s.bio s.goals today
      (s.user.badges.map BadgeAward.badgeId)
      (s.catalog.filter fun b => b.isActive)
      { k := 2, user := s.user, log := s.log, notifs := s.notifs, newBadges := [] }
  have hnb' : acc'.newBadges = added := by
    rw [hnb]
    exact List.nil_append added
  have heval : evaluate s today =
      (if acc'.newBadges.length > 0 then
        ({ s with user := acc'.user, log := acc'.log, notifs := acc'.notifs },
          acc'.newBadges)
      else ({ s with log := acc'.log, notifs := acc'.notifs }, acc'.newBadges)) := by
    simp only [evaluate, checkAndAwardBadges]
    rw [if_neg (htrue 0), if_neg (htrue 1), hok]
    dsimp only
    by_cases hlen : acc'.newBadges.length > 0
    · rw [if_pos hlen, if_neg (htrue _), if_pos hlen]
    · rw [if_neg hlen, if_neg hlen]
  by_cases hlen : acc'.newBadges.length > 0
  · rw [heval, if_pos hlen]
    exact ⟨added, hnb', hu, rfl, rfl, rfl, hl, hsub, hadded, hall⟩
  · have haddnil : added = [] := by
      rw [← hnb']
      exact List.length_eq_zero.mp (Nat.eq_zero_of_not_pos hlen)
    rw [heval, if_neg hlen]
    refine ⟨added, hnb', ?_, rfl, rfl, rfl, hl, hsub, hadded, hall⟩
    rw [haddnil]
    rfl

/-! Invariant preservation lemmas for the global progress invariant. -/

theorem checkStreakMilestones_points_ge (u : User) (t : Int) :
    u.totalPoints ≤ (checkStreakMilestones u t).1.totalPoints := by
  by_cases h : u.currentWorkoutStreak ∈ majorMilestoneValues
  · obtain ⟨-, hp⟩ := checkStreakMilestones_of_major u t h
    rw [hp]
    have hb : (0 : Int) ≤
        (if u.currentWorkoutStreak = 7 then 50
         else if u.currentWorkoutStreak = 30 then 200 else 500) := by
      split_ifs <;> norm_num
    linarith
  · obtain ⟨-, hp⟩ := checkStreakMilestones_of_not_major u t h
    rw [hp]

theorem updateWorkoutStreak_of_no_workout (s : EngineState) (t : Int)
    (hne : s.user.lastWorkoutDate ≠ some t)
    (hw : hasWorkoutLogOn s.log s.user.userId t = false) :
    updateWorkoutStreak s t = (s, s.user.currentWorkoutStreak) := by
  simp only [updateWorkoutStreak, hw]
  rw [if_neg hne, if_neg Bool.false_ne_true]

theorem updateWorkoutStreak_catalog (s : EngineState) (t : Int) :
    (updateWorkoutStreak s t).1.catalog = s.catalog := by
  simp only [updateWorkoutStreak]
  split_ifs <;> rfl

theorem updateWorkoutStreak_preserves (s : EngineState) (t : Int) (h : ProgressInv s) :
    ProgressInv (updateWorkoutStreak s t).1 := by
  obtain ⟨h0, h1, h2⟩ := h
  by_cases hne : s.user.lastWorkoutDate = some t
  · rw [updateWorkoutStreak_of_lastDate_today s t hne]
    exact ⟨h0, h1, h2⟩
  · by_cases hw : hasWorkoutLogOn s.log s.user.userId t = true
    · obtain ⟨u1, hueq, -, -, -, -, hpts, hcur, hlong, -, -⟩ :=
        updateWorkoutStreak_result s t hw hne
      have hc0 : 0 ≤ u1.currentWorkoutStreak := by
        rw [hcur]
        split_ifs
        · linarith
        · norm_num
      have hcl : u1.currentWorkoutStreak ≤ u1.longestWorkoutStreak := by
        rw [hlong]
        split_ifs with hgt
        · exact le_refl _
        · exact not_lt.mp hgt
      refine ⟨?_, ?_, ?_⟩
      · rw [hueq, checkStreakMilestones_fst_currentStreak]
        exact hc0
      · rw [hueq, checkStreakMilestones_fst_currentStreak,
            checkStreakMilestones_fst_longestStreak]
        exact hcl
      · have hge := checkStreakMilestones_points_ge u1 t
        have hpu : 0 ≤ u1.totalPoints := by
          rw [hpts]
          exact h2
        rw [hueq]
        linarith
    · rw [updateWorkoutStreak_of_no_workout s t hne (Bool.eq_false_iff.mpr hw)]
      exact ⟨h0, h1, h2⟩

theorem checkAndResetStreak_preserves (s : EngineState) (t : Int) (h : ProgressInv s) :
    ProgressInv (checkAndResetStreak s t) ∧ (checkAndResetStreak s t).catalog = s.catalog := by
  obtain ⟨h0, h1, h2⟩ := h
  rcases hld : s.user.lastWorkoutDate with _ | d
  · simp only [checkAndResetStreak, hld]
    exact ⟨⟨h0, h1, h2⟩, trivial⟩
  · simp only [checkAndResetStreak, hld]
    split_ifs with hcond
    · refine ⟨⟨le_refl 0, ?_, h2⟩, rfl⟩
      show (0 : Int) ≤ s.user.longestWorkoutStreak
      linarith
    · exact ⟨⟨h0, h1, h2⟩, rfl⟩

theorem awardPoints_ok_preserves (s : EngineState) (a : Int) (r : String) (t : Int)
    (h : ProgressInv s) (ha : 0 ≤ a) :
    ProgressInv (awardPoints s a r t true true).2 ∧
    (awardPoints s a r t true true).2.catalog = s.catalog := by
  obtain ⟨h0, h1, h2⟩ := h
  refine ⟨⟨h0, h1, ?_⟩, rfl⟩
  show (0 : Int) ≤ s.user.totalPoints + a
  linarith

theorem evaluate_preserves (s : EngineState) (t : Int) (h : ProgressInv s)
    (hcat : CatalogNonneg s) :
    ProgressInv (evaluate s t).1 ∧ (evaluate s t).1.catalog = s.catalog := by
  obtain ⟨added, -, hu, hcatalog, -, -, -, hsub, -, -⟩ := evaluate_spec s t
  obtain ⟨h0, h1, h2⟩ := h
  refine ⟨⟨?_, ?_, ?_⟩, hcatalog⟩
  · rw [hu, foldl_applyAward_currentStreak]
    exact h0
  · rw [hu, foldl_applyAward_currentStreak, foldl_applyAward_longestStreak]
    exact h1
  · rw [hu, foldl_applyAward_points]
    have hsum : 0 ≤ (added.map Badge.points).sum := by
      apply List.sum_nonneg
      intro x hx
      obtain ⟨b, hb, rfl⟩ := List.mem_map.mp hx
      exact hcat b (List.mem_of_mem_filter (hsub.subset hb))
    linarith

theorem applyOp_preserves (s : EngineState) (op : Op) (h : ProgressInv s)
    (hcat : CatalogNonneg s) (hop : CreditNonneg op) :
    ProgressInv (applyOp s op) ∧ (applyOp s op).catalog = s.catalog := by
  cases op with
  | qualifying t =>
    exact ⟨updateWorkoutStreak_preserves s t h, updateWorkoutStreak_catalog s t⟩
  | sweep t => exact checkAndResetStreak_preserves s t h
  | credit a r t => exact awardPoints_ok_preserves s a r t h hop
  | evalBadges t => exact evaluate_preserves s t h hcat

/-- C3: starting from any state satisfying the progress invariant (as a
fresh user does), with a catalog of non-negatively rewarded badges, every
state reachable by qualifying-event updates, daily sweeps, non-negative
point credits and badge evaluations satisfies
longestStreak greater-or-equal currentStreak and totalPoints
greater-or-equal 0. -/
theorem c3_progress_invariant (s : EngineState) (ops : List Op)
    (hinv : ProgressInv s) (hcat : CatalogNonneg s)
    (hops : ∀ op ∈ ops, CreditNonneg op) :
    (applyOps s ops).user.currentWorkoutStreak ≤
      (applyOps s ops).user.longestWorkoutStreak ∧
    0 ≤ (applyOps s ops).user.totalPoints := by
  suffices hgen : ∀ (ops : List Op) (s : EngineState), ProgressInv s → CatalogNonneg s →
      (∀ op ∈ ops, CreditNonneg op) → ProgressInv (applyOps s ops) by
    obtain ⟨-, ha, hb⟩ := hgen ops s hinv hcat hops
    exact ⟨ha, hb⟩
  intro ops
  induction ops with
  | nil =>
    intro s hs _ _
    exact hs
  | cons op rest ih =>
    intro s hs hc hops
    obtain ⟨hinv', hcat'⟩ :=
      applyOp_preserves s op hs hc (hops op (List.mem_cons_self op rest))
    have hcatN : CatalogNonneg (applyOp s op) := by
      unfold CatalogNonneg at hc ⊢
      rw [hcat']
      exact hc
    exact ih (applyOp s op) hinv' hcatN (fun o ho => hops o (List.mem_cons_of_mem op ho))

/-- Witness for C3: a concrete four-operation run from a fresh user. -/
theorem c3_progress_invariant_witness :
    (applyOps invDemoState demoOps).user.currentWorkoutStreak ≤
      (applyOps invDemoState demoOps).user.longestWorkoutStreak ∧
    0 ≤ (applyOps invDemoState demoOps).user.totalPoints :=
  c3_progress_invariant invDemoState demoOps
    ⟨by decide, by decide, by decide⟩
    (by
      intro b hb
      rw [List.mem_singleton.mp hb]
      decide)
    (by
      intro op hop
      fin_cases hop
      · trivial
      · show (0 : Int) ≤ 15
        norm_num
      · trivial
      · trivial)

/-- The effect of a fault-free evaluation on the earned badge ids: the
newly awarded ids are appended, each of them not previously earned, and
the catalog is untouched. -/
theorem evaluate_badgeIds (s : EngineState) (t : Int) :
    ∃ added : List Badge,
      (evaluate s t).2 = added ∧
      (evaluate s t).1.user.badges.map BadgeAward.badgeId =
        s.user.badges.map BadgeAward.badgeId ++ added.map Badge.badgeId ∧
      added.Sublist (s.catalog.filter fun b => b.isActive) ∧
      (∀ b ∈ added, b.badgeId ∉ s.user.badges.map BadgeAward.badgeId) ∧
      (evaluate s t).1.catalog = s.catalog := by
  obtain ⟨added, hsnd, hu, hcatalog, -, -, -, hsub, hadded, -⟩ := evaluate_spec s t
  refine ⟨added, hsnd, ?_, hsub, ?_, hcatalog⟩
  · rw [hu, foldl_applyAward_badges, List.map_append, List.map_map]
    rfl
  · intro b hb
    have hcont := (hadded b hb).1
    simpa using hcont

/-- One fault-free evaluation keeps earned badge ids duplicate-free. -/
theorem evaluate_nodup_step (s : EngineState) (t : Int)
    (hcat : (s.catalog.map Badge.badgeId).Nodup)
    (hb : (s.user.badges.map BadgeAward.badgeId).Nodup) :
    ((evaluate s t).1.user.badges.map BadgeAward.badgeId).Nodup ∧
    ((evaluate s t).1.catalog.map Badge.badgeId).Nodup := by
  obtain ⟨added, -, hids, hsub, hnotmem, hcatalog⟩ := evaluate_badgeIds s t
  constructor
  · rw [hids]
    refine List.Nodup.append hb ?_ ?_
    · have h1 : (added.map Badge.badgeId).Sublist
          ((s.catalog.filter fun b => b.isActive).map Badge.badgeId) := hsub.map _
      have h2 : ((s.catalog.filter fun b => b.isActive).map Badge.badgeId).Sublist
          (s.catalog.map Badge.badgeId) := (List.filter_sublist _).map _
      exact hcat.sublist (h1.trans h2)
    · intro a ha hamem
      obtain ⟨b, hbmem, rfl⟩ := List.mem_map.mp hamem
      exact hnotmem b hbmem ha
  · rw [hcatalog]
    exact hcat

/-- C4: with a duplicate-free catalog and duplicate-free earned badges, a
second fault-free checkAndAwardBadges run right after a first one (no new
activity in between) awards nothing, and any sequence of runs keeps
earnedBadges free of duplicate badgeIds. -/
theorem c4_badge_idempotent_nodup (s : EngineState) (today : Int) (days : List Int)
    (hcat : (s.catalog.map Badge.badgeId).Nodup)
    (hbadges : (s.user.badges.map BadgeAward.badgeId).Nodup) :
    (evaluate (evaluate s today).1 today).2 = [] ∧
    ((evalSeq s days).user.badges.map BadgeAward.badgeId).Nodup := by
  constructor
  · obtain ⟨added1, -, hu1, hcat1, hbio1, hgoals1, hlog1, hsub1, hadded1, hall1⟩ :=
      evaluate_spec s today
    set s1 := (evaluate s today).1 with hs1
    obtain ⟨added2, hsnd2, -, -, -, -, -, hsub2, hadded2, -⟩ := evaluate_spec s1 today
    rw [hsnd2, List.eq_nil_iff_forall_not_mem]
    intro b hb
    obtain ⟨hcontains2, hsat2⟩ := hadded2 b hb
    have hbfilter : b ∈ s.catalog.filter (fun b => b.isActive) := by
      have hmem := hsub2.subset hb
      rw [hcat1] at hmem
      exact hmem
    have hids1 : s1.user.badges.map BadgeAward.badgeId =
        s.user.badges.map BadgeAward.badgeId ++ added1.map Badge.badgeId := by
      rw [hu1, foldl_applyAward_badges, List.map_append, List.map_map]
      rfl
    have hnotin : b.badgeId ∉ s1.user.badges.map BadgeAward.badgeId := by
      simpa using hcontains2
    rw [hids1] at hnotin
    have hnot_old : b.badgeId ∉ s.user.badges.map BadgeAward.badgeId :=
      fun h => hnotin (List.mem_append.mpr (Or.inl h))
    have hnot_added1 : b.badgeId ∉ added1.map Badge.badgeId :=
      fun h => hnotin (List.mem_append.mpr (Or.inr h))
    rcases hall1 b hbfilter with h | h | h
    · exact hnot_old (by simpa using h)
    · exact hnot_added1 h
    · have huser_congr : badgeSatisfied s1.user s1.log s1.bio s1.goals today b =
          badgeSatisfied s.user s1.log s1.bio s1.goals today b := by
        apply badgeSatisfied_user_congr
        · rw [hu1, foldl_applyAward_userId]
        · rw [hu1, foldl_applyAward_currentStreak]
      have hlogt : badgeSatisfied s.user s1.log s1.bio s1.goals today b =
          badgeSatisfied s.user s.log s.bio s.goals today b := by
        rw [hbio1, hgoals1, hlog1]
        apply badgeSatisfied_append
        intro e he
        obtain ⟨bb, -, rfl⟩ := List.mem_map.mp he
        rfl
      rw [huser_congr, hlogt, h] at hsat2
      exact Bool.noConfusion hsat2
  · have hseq : ∀ (ds : List Int) (s0 : EngineState),
        (s0.catalog.map Badge.badgeId).Nodup →
        (s0.user.badges.map BadgeAward.badgeId).Nodup →
        ((evalSeq s0 ds).user.badges.map BadgeAward.badgeId).Nodup := by
      intro ds
      induction ds with
      | nil =>
        intro s0 _ hb
        exact hb
      | cons d rest ih =>
        intro s0 hc hb
        obtain ⟨hb', hc'⟩ := evaluate_nodup_step s0 d hc hb
        exact ih (evaluate s0 d).1 hc' hb'
    exact hseq days s hcat hbadges

/-- Witness for C4 at a concrete state: the demo badge is awarded once;
the immediate second run awards nothing, and a two-day run sequence
leaves the earned ids duplicate-free. -/
theorem c4_badge_idempotent_nodup_witness :
    (evaluate (evaluate badgeDemoState 10).1 10).2 = [] ∧
    ((evalSeq badgeDemoState [10, 11]).user.badges.map BadgeAward.badgeId).Nodup :=
  c4_badge_idempotent_nodup badgeDemoState 10 [10, 11] (by decide) (by decide)

end HealthEngine
